import Mathlib

/-!
Shallow embedding of the metro-costs pipeline (scripts/common.py,
scripts/average_cost_of_cars.py, scripts/tcp_transit_costs.py,
scripts/tcp_rolling_costs.py, scripts/metro_costs.py).

Modelling conventions:
* pandas float cells that may be NaN are `Option ℚ` (`none` = NaN);
  cells that are always numeric on the paths the claims exercise are `ℚ`.
* A DataFrame is a `List` of structure values, one per row, in row order.
* pandas comparisons against NaN are `False`; `.sum()` skips NaN;
  `np.where` selects elementwise.  Division of floats by zero follows
  IEEE semantics and is modelled by `FloatVal`/`pdDiv` where it matters.
* `pd.merge(..., how="left", on=ks)` is modelled by `flatMap`: each left
  row is paired with every key-matching right row, or kept once with the
  right-only columns `none` when there is no match.  NaN join keys never
  match (pandas semantics).
-/

-- Batteries marks the `Rat` arithmetic operations `@[irreducible]`, which
-- blocks `decide`-style evaluation of the executable definitions below on
-- concrete inputs.  Re-enable unfolding; this changes no definition and no
-- axiom, only reducibility metadata.
set_option allowUnsafeReducibility true
attribute [semireducible] Rat.add Rat.mul Rat.sub Rat.inv

namespace Metro

/-- One row of the rolling-stock / track-cost tables after import and
normalisation.  `pid` stands for the tuple of identifying columns that the
claims never inspect individually (iso2_code, city, trainset, reference, …);
the columns the claims do inspect are explicit.  `none` models a NaN cell. -/
structure ProjectRecord where
  pid : ℕ
  start_year : Option ℤ
  end_year : Option ℤ
  currency : String
  cost : Option ℚ
  cars : Option ℚ
  length : Option ℚ
  real_cost : Option ℚ
deriving DecidableEq, Repr

/-- One melted row emitted by `divide_across_years`: all original columns
(`rec`) plus `distributed_year` and the `distributed_<var>` value.  The
positive filter in the source guarantees the value is a real number, so it
is `ℚ`. -/
structure DistributedRow where
  record : ProjectRecord
  distributed_year : ℤ
  value : ℚ
deriving DecidableEq, Repr

/-- Embeds `(df["start_year"] <= year) & (df["end_year"] >= year)`; NaN
compares False on either side (common.py line 101). -/
def inSpan (r : ProjectRecord) (y : ℤ) : Bool :=
  match r.start_year, r.end_year with
  | some s, some e => decide (s ≤ y) && decide (y ≤ e)
  | _, _ => false

/-- Embeds `end_year - start_year + 1`, the inclusive span length
(common.py line 102); only consulted when both bounds are present. -/
def spanLen (r : ProjectRecord) : ℤ :=
  match r.start_year, r.end_year with
  | some s, some e => e - s + 1
  | _, _ => 0

/-- The cell written for `(record, year)` before melting: value/span inside
the record's own span, `0` outside (common.py lines 100-104).  `none` is the
NaN that arises when the pro-rated variable itself is NaN. -/
def cellValue (v : ProjectRecord → Option ℚ) (r : ProjectRecord) (y : ℤ) :
    Option ℚ :=
  if inSpan r y then (v r).map (fun q => q / (spanLen r : ℚ)) else some 0

/-- Embeds `df.start_year.min()`; pandas min skips NaN, and `none` marks the
all-NaN/empty case (common.py line 92). -/
def minStartYear (rs : List ProjectRecord) : Option ℤ :=
  (rs.filterMap (·.start_year)).min?

/-- Embeds `df.end_year.max()`; pandas max skips NaN (common.py line 93). -/
def maxEndYear (rs : List ProjectRecord) : Option ℤ :=
  (rs.filterMap (·.end_year)).max?

/-- The year grid `list(range(min_year, max_year + 1))`
(common.py line 96). -/
def yearGrid (lo hi : ℤ) : List ℤ :=
  (List.range (hi + 1 - lo).toNat).map (fun (i : ℕ) => lo + (i : ℤ))

/-- Embeds `divide_across_years` (common.py lines 72-123): add one column per grid
year holding the pro-rated value (0 outside the record's span), melt to long
format (year-major, as pandas melt stacks column by column), and keep only
rows with a strictly positive distributed value (line 118).  The degenerate
frame with no usable bound at all (pandas would fail on `astype(int)` of an
all-NaN min/max) is mapped to the empty output; no claim exercises it. -/
def divide_across_years (rs : List ProjectRecord)
    (v : ProjectRecord → Option ℚ) : List DistributedRow :=
  match minStartYear rs, maxEndYear rs with
  | some lo, some hi =>
      (yearGrid lo hi).flatMap (fun y =>
        rs.filterMap (fun r =>
          match cellValue v r y with
          | some q => if 0 < q then some ⟨r, y, q⟩ else none
          | none => none))
  | _, _ => []

/-- Embeds `remove_data_without_start_end_year` (common.py lines 126-134). -/
def remove_data_without_start_end_year (rs : List ProjectRecord) :
    List ProjectRecord :=
  (rs.filter (fun r => !r.start_year.isNone)).filter
    (fun r => !r.end_year.isNone)

/-! ### Joining the per-variable distributions
(`distribute_all_columns_over_years`, scripts/average_cost_of_cars.py
lines 95-156; the same pattern appears in scripts/tcp_rolling_costs.py
lines 120-180 and, for two variables, scripts/tcp_transit_costs.py
lines 51-113).  The merge key is the full tuple of original columns plus
`distributed_year`, i.e. `(record, distributed_year)` here; the distributed
value columns are not keys.  All merges are `how="left"`. -/

/-- Row of `df_length.merge(df_cars, how="left", on=cols)`: the left frame's
`distributed_length` plus the right frame's `distributed_cars`, which is NaN
(`none`) when no cars row matches. -/
structure Merged2 where
  record : ProjectRecord
  distributed_year : ℤ
  distributed_length : ℚ
  distributed_cars : Option ℚ
deriving DecidableEq, Repr

/-- Row after the second left merge, adding `distributed_real_cost`. -/
structure Merged3 where
  record : ProjectRecord
  distributed_year : ℤ
  distributed_length : ℚ
  distributed_cars : Option ℚ
  distributed_real_cost : Option ℚ
deriving DecidableEq, Repr

/-- Embeds `left.merge(right, how="left", on=cols)` for two distributed frames:
every left row is kept; it is paired with each key-matching right row, or
with NaN (`none`) in the right value column when nothing matches. -/
def leftMergeCars (left right : List DistributedRow) : List Merged2 :=
  left.flatMap (fun l =>
    let ms := right.filter (fun r =>
      r.record = l.record && r.distributed_year = l.distributed_year)
    if ms.isEmpty then [⟨l.record, l.distributed_year, l.value, none⟩]
    else ms.map (fun m => ⟨l.record, l.distributed_year, l.value, some m.value⟩))

/-- The second `merge(..., how="left", on=cols)`, attaching
`distributed_real_cost` to the already-merged rows. -/
def leftMergeRealCost (left : List Merged2) (right : List DistributedRow) :
    List Merged3 :=
  left.flatMap (fun l =>
    let ms := right.filter (fun r =>
      r.record = l.record && r.distributed_year = l.distributed_year)
    if ms.isEmpty then
      [⟨l.record, l.distributed_year, l.distributed_length,
        l.distributed_cars, none⟩]
    else ms.map (fun m =>
      ⟨l.record, l.distributed_year, l.distributed_length,
       l.distributed_cars, some m.value⟩))

/-- Embeds `distribute_all_columns_over_years`
(scripts/average_cost_of_cars.py lines 95-156): distribute `cars`, `length`
and `real_cost` independently over the years, then left-merge the cars and
real-cost frames onto the length frame. -/
def distribute_all_columns_over_years (rs : List ProjectRecord) :
    List Merged3 :=
  let df_cars := divide_across_years rs (·.cars)
  let df_length := divide_across_years rs (·.length)
  let df_real_cost := divide_across_years rs (·.real_cost)
  leftMergeRealCost (leftMergeCars df_length df_cars) df_real_cost

/-! ### Aggregation and ratio columns
(`tcp_cost_per_km_pipeline`, scripts/tcp_transit_costs.py lines 139-151;
the same groupby-sum-then-divide shape is used in
scripts/tcp_rolling_costs.py lines 231-249). -/

/-- The value of one float cell of a ratio column: pandas/numpy division
follows IEEE-754, so a zero denominator gives ±infinity for a nonzero
numerator and NaN for 0/0. -/
inductive FloatVal where
  | fin (q : ℚ)
  | inf
  | ninf
  | nan
deriving DecidableEq, Repr

/-- Elementwise pandas float division `a / b` for real-valued cells. -/
def pdDiv (a b : ℚ) : FloatVal :=
  if b ≠ 0 then .fin (a / b)
  else if 0 < a then .inf
  else if a < 0 then .ninf
  else .nan

/-- The columns of the merged frame consulted by the regional groupby of
`tcp_cost_per_km_pipeline` (uitp_region and distributed_year are the group
keys; the distributed value columns may hold NaN, which `.sum()` skips). -/
structure MergedCostRow where
  uitp_region : String
  distributed_year : ℤ
  distributed_real_cost : Option ℚ
  distributed_length : Option ℚ
deriving DecidableEq, Repr

/-- One output row of the regional aggregation: summed distributed columns
and the post-sum ratio `cost_per_km_distributed`. -/
structure RegionalAggRow where
  uitp_region : String
  distributed_year : ℤ
  distributed_real_cost : ℚ
  distributed_length : ℚ
  cost_per_km_distributed : FloatVal
deriving DecidableEq, Repr

/-- The distinct `(uitp_region, distributed_year)` group keys, in order of
first appearance (pandas sorts them; the claims do not depend on the order
of the output rows). -/
def aggKeys (rows : List MergedCostRow) : List (String × ℤ) :=
  (rows.map (fun r => (r.uitp_region, r.distributed_year))).dedup

/-- Embeds `groupby(...)[c].sum()` for one group key: pandas sums skip NaN, so a
group whose cells are all NaN sums to 0. -/
def groupSum (rows : List MergedCostRow) (k : String × ℤ)
    (c : MergedCostRow → Option ℚ) : ℚ :=
  (((rows.filter (fun r =>
      r.uitp_region = k.1 && r.distributed_year = k.2)).filterMap c)).sum

/-- The aggregation step of `tcp_cost_per_km_pipeline`
(scripts/tcp_transit_costs.py lines 139-151): group the merged rows by
`(uitp_region, distributed_year)`, sum `distributed_real_cost` and
`distributed_length`, then compute `cost_per_km_distributed` as the
quotient of the two sums. -/
def tcp_cost_per_km_aggregate (rows : List MergedCostRow) :
    List RegionalAggRow :=
  (aggKeys rows).map (fun k =>
    ⟨k.1, k.2, groupSum rows k (·.distributed_real_cost),
     groupSum rows k (·.distributed_length),
     pdDiv (groupSum rows k (·.distributed_real_cost))
       (groupSum rows k (·.distributed_length))⟩)

/-! ### Gap filling
(`_fill_gaps_with_global_average`, scripts/metro_costs.py lines 153-185).
The input frame is the region/year estimate table after the merge in
`estimate_rolling_stock_costs`; the columns the function reads or writes are
modelled explicitly (`cost_per_km_distributed`, `rolling_stock_cost_desc`);
the helper `global_min` column merged in by the function is consumed
immediately and dropped by the caller's column filter, so it is not carried
in the row type. -/

/-- A row of the frame passed to `_fill_gaps_with_global_average`. -/
structure GapRow where
  year : ℤ
  uitp_region : String
  cost_per_km_distributed : Option ℚ
  rolling_stock_cost_desc : Option String
deriving DecidableEq, Repr

/-- A row of the `track_cost` table read from `regional_cars_cost_per_km.csv`
(only the columns consulted by the gap filler). -/
structure TrackCostRow where
  uitp_region : String
  year : ℤ
  cost_per_km_distributed : Option ℚ
deriving DecidableEq, Repr

/-- Embeds `_fill_gaps_with_global_average` (scripts/metro_costs.py lines 153-185):
restrict `track_cost` to its `"global min"` rows, left-merge their value onto
`df` by year, set `rolling_stock_cost_desc` to `"global min"` where the cost
cell is NaN and `"regional"` elsewhere (`np.where`, line 176), and replace
NaN cost cells by the global-min value (line 179).  Non-NaN cost cells are
left untouched. -/
def fill_gaps_with_global_average (df : List GapRow)
    (track_cost : List TrackCostRow) : List GapRow :=
  df.flatMap (fun r =>
    let gms := (track_cost.filter (fun t =>
      t.uitp_region = "global min" && t.year = r.year)).map
        (·.cost_per_km_distributed)
    let fill := fun (gm : Option ℚ) =>
      { r with
        rolling_stock_cost_desc :=
          some (if r.cost_per_km_distributed.isNone then "global min"
                else "regional"),
        cost_per_km_distributed :=
          if r.cost_per_km_distributed.isNone then gm
          else r.cost_per_km_distributed }
    if gms.isEmpty then [fill none] else gms.map fill)

/-! ### Currency conversion
(`convert_to_usd`, scripts/common.py lines 172-191, and the caller's filter
in scripts/average_cost_of_cars.py line 214). -/

/-- One row of the melted exchange-rate table: `(year, currency)` keyed rate.
The melt of the wide CSV produces NaN rates for combinations with no data,
modelled as `rate = none`. -/
structure XRRow where
  year : ℤ
  currency : String
  rate : Option ℚ
deriving DecidableEq, Repr

/-- Output row of `convert_to_usd`: the original columns (with the original
`real_cost` renamed to `real_cost_usd_ppp`), the merged `lcu_to_usd_xr`
rate, and the recomputed `real_cost = cost * lcu_to_usd_xr`. -/
structure ConvertedRecord where
  record : ProjectRecord
  real_cost_usd_ppp : Option ℚ
  lcu_to_usd_xr : Option ℚ
  real_cost : Option ℚ
deriving DecidableEq, Repr

/-- NaN-propagating float multiplication for `cost * lcu_to_usd_xr`. -/
def mulOpt (a b : Option ℚ) : Option ℚ :=
  match a, b with
  | some x, some y => some (x * y)
  | _, _ => none

/-- Embeds `convert_to_usd` (scripts/common.py lines 172-191): rename `real_cost`
to `real_cost_usd_ppp`, left-merge the exchange-rate table on
`(start_year, currency)` (the table's `year` column is renamed to
`start_year` for the merge; a NaN `start_year` never matches), and add
`real_cost = cost * lcu_to_usd_xr`.  Rows with no matching rate are kept
with NaN rate and NaN `real_cost`, not dropped. -/
def convert_to_usd (rs : List ProjectRecord) (xr : List XRRow) :
    List ConvertedRecord :=
  rs.flatMap (fun r =>
    let ms := xr.filter (fun x =>
      some x.year = r.start_year && x.currency = r.currency)
    if ms.isEmpty then [⟨r, r.real_cost, none, none⟩]
    else ms.map (fun x =>
      ⟨r, r.real_cost, x.rate, mulOpt r.cost x.rate⟩))

/-- The caller's removal of unconvertible rows
(`df.loc[lambda d: ~(d.lcu_to_usd_xr.isna())]`,
scripts/average_cost_of_cars.py line 214). -/
def drop_unconvertible (rows : List ConvertedRecord) : List ConvertedRecord :=
  rows.filter (fun r => !r.lcu_to_usd_xr.isNone)

/-! ### Sums used in the conservation statement. -/

/-- Total of the `distributed_<var>` column over an output frame, as read by
the post-distribution check `melted_df[output_var].sum()`
(common.py line 121). -/
def distributedSum (rows : List DistributedRow) : ℚ :=
  (rows.map (·.value)).sum

/-- Total of the raw variable over the input frame, as read by the
pre-distribution check `df[var_to_pro_rate].sum()` (common.py line 86);
pandas sums skip NaN cells. -/
def rawSum (rs : List ProjectRecord) (v : ProjectRecord → Option ℚ) : ℚ :=
  (rs.filterMap v).sum

/-- Numeric contribution of one record to one melted year after the
positive filter: the kept cell value, or 0 when the row is dropped.
Used to reorganise the conservation sum. -/
def emitVal (v : ProjectRecord → Option ℚ) (r : ProjectRecord) (y : ℤ) : ℚ :=
  match cellValue v r y with
  | some q => if 0 < q then q else 0
  | none => 0

/-! ### Concrete inputs used by witnesses and counterexamples. -/

/-- The spec's concrete scenario: cost 100 spread over 2018-2022. -/
def recA : ProjectRecord :=
  ⟨0, some 2018, some 2022, "USD", some 100, none, none, some 100⟩

/-- A record with a negative pro-rated value (conservation counterexample):
`divide_across_years` drops every row it generates. -/
def recNeg : ProjectRecord :=
  ⟨1, some 2020, some 2020, "USD", some (-1), none, none, some (-1)⟩

/-- A span-1 record whose pro-rated variable is exactly zero. -/
def recZero : ProjectRecord :=
  ⟨2, some 2020, some 2020, "USD", some 0, some 0, none, some 0⟩

/-- A span-1 record with cars data but no length data (NaN). -/
def recCarsOnly : ProjectRecord :=
  ⟨3, some 2020, some 2020, "USD", some 100, some 10, none, some 7⟩

/-- A record missing its start year. -/
def recNoStart : ProjectRecord :=
  ⟨4, none, some 2020, "USD", some 50, some 10, some 2, some 5⟩

/-- A fully-bounded span-1 record with all variables present. -/
def recFull : ProjectRecord :=
  ⟨5, some 2020, some 2020, "USD", some 40, some 4, some 2, some 8⟩

/-- A record whose (start_year, currency) pair has no exchange-rate entry
for the table `xrMiss` below. -/
def recEur : ProjectRecord :=
  ⟨6, some 2020, some 2022, "EUR", some 10, none, none, some 99⟩

/-- An exchange-rate table with no entry for `(2020, "EUR")`. -/
def xrMiss : List XRRow := [⟨2019, "EUR", some (1/2)⟩, ⟨2020, "USD", some 1⟩]

/-- An exchange-rate table holding rate 2 for `(2020, "EUR")`. -/
def xrHit : List XRRow := [⟨2019, "EUR", some (1/2)⟩, ⟨2020, "EUR", some 2⟩]

/-- Three same-group merged rows with pairwise different cost/length ratios
(1, 2 and 3): the grouped ratio must be 14/6 = 7/3, not the mean 2. -/
def aggRowsThree : List MergedCostRow :=
  [⟨"Europe", 2020, some 1, some 1⟩, ⟨"Europe", 2020, some 4, some 2⟩,
   ⟨"Europe", 2020, some 9, some 3⟩]

/-- A merged row with positive cost but NaN length: its group's summed
denominator is 0 (pandas sums skip NaN). -/
def aggRowZeroDen : MergedCostRow := ⟨"Europe", 2020, some 5, none⟩

/-- A gap-fill input row whose cost cell is missing. -/
def gapNullRow : GapRow := ⟨2020, "Europe", none, none⟩

/-- A gap-fill input row whose cost cell is present. -/
def gapFullRow : GapRow := ⟨2020, "Asia", some 3, none⟩

/-- A track-cost table carrying a "global min" value of 7 for 2020. -/
def gapTrackMin : List TrackCostRow := [⟨"global min", 2020, some 7⟩]

/-! ## Theorems -/

/-- Characterisation of the rows emitted by `divide_across_years`: every
output row comes from an input record with both bounds present, carries a
year inside that record's own span, and holds the positive pro-rated
value. -/
lemma mem_divide_across_years {rs : List ProjectRecord}
    {v : ProjectRecord → Option ℚ} {row : DistributedRow}
    (h : row ∈ divide_across_years rs v) :
    row.record ∈ rs ∧ ∃ s e q, row.record.start_year = some s ∧
      row.record.end_year = some e ∧ v row.record = some q ∧
      s ≤ row.distributed_year ∧ row.distributed_year ≤ e ∧
      row.value = q / ((e - s + 1 : ℤ) : ℚ) ∧ 0 < row.value ∧ 0 < q := by
  unfold divide_across_years at h
  cases hmin : minStartYear rs with
  | none => rw [hmin] at h; simp at h
  | some lo =>
  cases hmax : maxEndYear rs with
  | none => rw [hmin, hmax] at h; simp at h
  | some hi =>
  rw [hmin, hmax] at h
  rw [List.mem_flatMap] at h
  obtain ⟨y, _hy, h⟩ := h
  rw [List.mem_filterMap] at h
  obtain ⟨r, hr, heq⟩ := h
  cases hcv : cellValue v r y with
  | none => rw [hcv] at heq; simp at heq
  | some q =>
    rw [hcv] at heq
    by_cases hq : 0 < q
    · simp only [hq, if_true] at heq
      obtain rfl : DistributedRow.mk r y q = row := by
        simpa using heq
      unfold cellValue at hcv
      by_cases hin : inSpan r y
      · rw [if_pos hin] at hcv
        unfold inSpan at hin
        cases hs : r.start_year with
        | none => rw [hs] at hin; simp at hin
        | some s =>
        cases he : r.end_year with
        | none => rw [hs, he] at hin; simp at hin
        | some e =>
        rw [hs, he] at hin
        simp only [Bool.and_eq_true, decide_eq_true_eq] at hin
        cases hv : v r with
        | none => rw [hv] at hcv; simp at hcv
        | some q0 =>
          rw [hv] at hcv
          obtain hq0 : q0 / ((spanLen r : ℤ) : ℚ) = q := by simpa using hcv
          have hspan : spanLen r = e - s + 1 := by
            unfold spanLen; rw [hs, he]
          rw [hspan] at hq0
          have hspanpos : (0 : ℤ) < e - s + 1 := by omega
          have hcast : (0 : ℚ) < ((e - s + 1 : ℤ) : ℚ) := by
            exact_mod_cast hspanpos
          refine ⟨hr, s, e, q0, rfl, rfl, rfl, hin.1, hin.2, hq0.symm, hq, ?_⟩
          have := hq
          rw [← hq0] at this
          rcases (div_pos_iff).mp this with ⟨h1, _⟩ | ⟨_, h2⟩
          · exact h1
          · exact absurd hcast (not_lt.mpr h2.le)
      · rw [if_neg hin] at hcv
        obtain rfl : (0 : ℚ) = q := by simpa using hcv
        exact absurd hq (by norm_num)
    · simp only [hq, if_false] at heq
      simp at heq

/-- C3: the year-distribution operation emits no row whose distributed value
is zero or negative; a record whose pro-rated variable is missing or ≤ 0
produces zero rows (every emitted row's record has a present, strictly
positive raw value); and no row is emitted for a year outside the record's
own [start_year, end_year] span. -/
theorem divide_strictly_positive (rs : List ProjectRecord)
    (v : ProjectRecord → Option ℚ) (row : DistributedRow)
    (h : row ∈ divide_across_years rs v) :
    0 < row.value ∧
    (∃ q, v row.record = some q ∧ 0 < q) ∧
    (∃ s e, row.record.start_year = some s ∧ row.record.end_year = some e ∧
      s ≤ row.distributed_year ∧ row.distributed_year ≤ e) := by
  obtain ⟨_, s, e, q, hs, he, hv, h1, h2, _, hpos, hqpos⟩ :=
    mem_divide_across_years h
  exact ⟨hpos, ⟨q, hv, hqpos⟩, ⟨s, e, hs, he, h1, h2⟩⟩

/-- Witness for C3 at the concrete record recA (cost 100 over 2018-2022). -/
theorem divide_strictly_positive_witness :
    (DistributedRow.mk recA 2018 20 ∈
      divide_across_years [recA] (fun r => r.real_cost)) ∧
    (0 < (DistributedRow.mk recA 2018 20).value ∧
    (∃ q, (fun (r : ProjectRecord) => r.real_cost)
        (DistributedRow.mk recA 2018 20).record = some q ∧ 0 < q) ∧
    (∃ s e, (DistributedRow.mk recA 2018 20).record.start_year = some s ∧
      (DistributedRow.mk recA 2018 20).record.end_year = some e ∧
      s ≤ (DistributedRow.mk recA 2018 20).distributed_year ∧
      (DistributedRow.mk recA 2018 20).distributed_year ≤ e)) :=
  ⟨by decide, divide_strictly_positive [recA] (fun r => r.real_cost)
    (DistributedRow.mk recA 2018 20) (by decide)⟩

/-- C5 (amended): the operation raises no error on records lacking temporal
bounds; such records are silently excluded — no emitted row comes from a
record whose start_year or end_year is missing.  (The repository defines no
MissingBoundsError; the caller filters such rows out beforehand with
remove_data_without_start_end_year.) -/
theorem divide_missing_bounds_silent (rs : List ProjectRecord)
    (v : ProjectRecord → Option ℚ) (row : DistributedRow)
    (h : row ∈ divide_across_years rs v) :
    row.record.start_year ≠ none ∧ row.record.end_year ≠ none := by
  obtain ⟨_, s, e, _, hs, he, _⟩ := mem_divide_across_years h
  exact ⟨by rw [hs]; simp, by rw [he]; simp⟩

/-- Witness for C5's amended theorem at a concrete distributed row. -/
theorem divide_missing_bounds_silent_witness :
    (DistributedRow.mk recFull 2020 4 ∈
      divide_across_years [recNoStart, recFull] (fun r => r.cars)) ∧
    ((DistributedRow.mk recFull 2020 4).record.start_year ≠ none ∧
     (DistributedRow.mk recFull 2020 4).record.end_year ≠ none) :=
  ⟨by decide, divide_missing_bounds_silent [recNoStart, recFull]
    (fun r => r.cars) (DistributedRow.mk recFull 2020 4) (by decide)⟩

/-- Counterexample for C5 as stated: an input containing a record with a
missing start_year (recNoStart, cars = 10 > 0) makes the operation return
normally, silently omitting that record's rows, instead of failing loudly
with a MissingBoundsError. -/
theorem divide_missing_bounds_counterexample :
    divide_across_years [recNoStart, recFull] (fun r => r.cars) =
      [DistributedRow.mk recFull 2020 4] := by decide

/-- C1 counterexample: a record whose raw value is negative is dropped
entirely by the positive filter, so the distributed total (0) differs from
the raw total (-1) by far more than any floating-point tolerance. -/
theorem divide_conservation_counterexample :
    distributedSum (divide_across_years [recNeg] (fun r => r.real_cost)) = 0 ∧
    rawSum [recNeg] (fun r => r.real_cost) = -1 ∧
    distributedSum (divide_across_years [recNeg] (fun r => r.real_cost)) ≠
      rawSum [recNeg] (fun r => r.real_cost) := by decide

/-- C2 counterexample: recCarsOnly has cars data but NaN length, so its
(project, 2020) pair appears in the cars distribution but the length frame
is empty; the left-join chain keyed on the length frame then drops the pair
entirely instead of keeping it with length null. -/
theorem distribute_all_drops_right_only_rows :
    divide_across_years [recCarsOnly] (fun r => r.cars) =
      [DistributedRow.mk recCarsOnly 2020 10] ∧
    distribute_all_columns_over_years [recCarsOnly] = [] := by decide

/-- C4 counterexample: a span-1 record whose raw value is 0 produces zero
distributed rows, not exactly one. -/
theorem divide_span_one_zero_value_counterexample :
    divide_across_years [recZero] (fun r => r.cars) = [] := by decide

/-- C4 (amended): a record with start_year = end_year whose pro-rated
variable is present and strictly positive produces exactly one distributed
row, whose value equals the raw value and whose distributed_year is the
start year. -/
theorem divide_span_one_identity (r : ProjectRecord)
    (v : ProjectRecord → Option ℚ) (y : ℤ) (q : ℚ)
    (hs : r.start_year = some y) (he : r.end_year = some y)
    (hv : v r = some q) (hq : 0 < q) :
    divide_across_years [r] v = [DistributedRow.mk r y q] := by
  have h1 : minStartYear [r] = some y := by simp [minStartYear, hs]
  have h2 : maxEndYear [r] = some y := by simp [maxEndYear, he]
  have hcell : cellValue v r y = some q := by
    unfold cellValue inSpan spanLen
    rw [hs, he, hv]
    simp
  have hg : yearGrid y y = [y] := by
    unfold yearGrid
    have : y + 1 - y = 1 := by ring
    rw [this]
    norm_num [List.range_succ]
  unfold divide_across_years
  rw [h1, h2]
  simp only [hg, List.flatMap_cons, List.flatMap_nil, List.append_nil,
    List.filterMap_cons, List.filterMap_nil, hcell, hq, if_true]

/-- Witness for C4's amended theorem at the concrete record recFull. -/
theorem divide_span_one_identity_witness :
    (recFull.start_year = some 2020 ∧ recFull.end_year = some 2020 ∧
      (fun (r : ProjectRecord) => r.cars) recFull = some 4 ∧ (0 : ℚ) < 4) ∧
    divide_across_years [recFull] (fun r => r.cars) =
      [DistributedRow.mk recFull 2020 4] :=
  ⟨⟨rfl, rfl, rfl, by norm_num⟩,
   divide_span_one_identity recFull (fun r => r.cars) 2020 4 rfl rfl rfl
     (by norm_num)⟩

/-- A left merge keeps every left row: some merged row carries its key and
length value, and the cars column is null when no right row matches. -/
lemma exists_mem_leftMergeCars {left right : List DistributedRow}
    {l : DistributedRow} (hl : l ∈ left) :
    ∃ m ∈ leftMergeCars left right,
      m.record = l.record ∧ m.distributed_year = l.distributed_year ∧
      m.distributed_length = l.value ∧
      (right.filter (fun r => r.record = l.record &&
        r.distributed_year = l.distributed_year) = [] →
        m.distributed_cars = none) := by
  by_cases hms : (right.filter (fun r => r.record = l.record &&
      r.distributed_year = l.distributed_year)).isEmpty
  · refine ⟨⟨l.record, l.distributed_year, l.value, none⟩, ?_, rfl, rfl, rfl,
      fun _ => rfl⟩
    unfold leftMergeCars
    rw [List.mem_flatMap]
    exact ⟨l, hl, by simp [hms]⟩
  · obtain ⟨m0, hm0⟩ : ∃ m0, m0 ∈ right.filter (fun r =>
        r.record = l.record && r.distributed_year = l.distributed_year) := by
      cases hfm : right.filter (fun r => r.record = l.record &&
          r.distributed_year = l.distributed_year) with
      | nil => rw [hfm] at hms; simp at hms
      | cons a t => exact ⟨a, List.mem_cons_self a t⟩
    refine ⟨⟨l.record, l.distributed_year, l.value, some m0.value⟩, ?_, rfl,
      rfl, rfl, ?_⟩
    · unfold leftMergeCars
      rw [List.mem_flatMap]
      refine ⟨l, hl, ?_⟩
      simp only [hms, if_false, Bool.false_eq_true]
      exact List.mem_map.mpr ⟨m0, hm0, rfl⟩
    · intro hf
      rw [hf] at hms
      simp at hms

/-- The second left merge keeps every left row, preserving its columns, and
leaves the real-cost column null when no right row matches. -/
lemma exists_mem_leftMergeRealCost {left : List Merged2}
    {right : List DistributedRow} {l : Merged2} (hl : l ∈ left) :
    ∃ m ∈ leftMergeRealCost left right,
      m.record = l.record ∧ m.distributed_year = l.distributed_year ∧
      m.distributed_length = l.distributed_length ∧
      m.distributed_cars = l.distributed_cars ∧
      (right.filter (fun r => r.record = l.record &&
        r.distributed_year = l.distributed_year) = [] →
        m.distributed_real_cost = none) := by
  by_cases hms : (right.filter (fun r => r.record = l.record &&
      r.distributed_year = l.distributed_year)).isEmpty
  · refine ⟨⟨l.record, l.distributed_year, l.distributed_length,
      l.distributed_cars, none⟩, ?_, rfl, rfl, rfl, rfl, fun _ => rfl⟩
    unfold leftMergeRealCost
    rw [List.mem_flatMap]
    exact ⟨l, hl, by simp [hms]⟩
  · obtain ⟨m0, hm0⟩ : ∃ m0, m0 ∈ right.filter (fun r =>
        r.record = l.record && r.distributed_year = l.distributed_year) := by
      cases hfm : right.filter (fun r => r.record = l.record &&
          r.distributed_year = l.distributed_year) with
      | nil => rw [hfm] at hms; simp at hms
      | cons a t => exact ⟨a, List.mem_cons_self a t⟩
    refine ⟨⟨l.record, l.distributed_year, l.distributed_length,
      l.distributed_cars, some m0.value⟩, ?_, rfl, rfl, rfl, rfl, ?_⟩
    · unfold leftMergeRealCost
      rw [List.mem_flatMap]
      refine ⟨l, hl, ?_⟩
      simp only [hms, if_false, Bool.false_eq_true]
      exact List.mem_map.mpr ⟨m0, hm0, rfl⟩
    · intro hf
      rw [hf] at hms
      simp at hms

/-- C2 (amended): every (project, year) row of the left/base frame (the
length distribution) survives the merge chain: some joined row carries its
key and distributed length, with the cars and real-cost columns null when
the corresponding distribution has no matching row.  (Rows present only in
a non-left frame are dropped — see the counterexample.) -/
theorem distribute_all_preserves_left_rows (rs : List ProjectRecord)
    (l : DistributedRow)
    (hl : l ∈ divide_across_years rs (fun r => r.length)) :
    ∃ m ∈ distribute_all_columns_over_years rs,
      m.record = l.record ∧ m.distributed_year = l.distributed_year ∧
      m.distributed_length = l.value ∧
      ((divide_across_years rs (fun r => r.cars)).filter (fun c =>
        c.record = l.record && c.distributed_year = l.distributed_year) = [] →
        m.distributed_cars = none) ∧
      ((divide_across_years rs (fun r => r.real_cost)).filter (fun c =>
        c.record = l.record && c.distributed_year = l.distributed_year) = [] →
        m.distributed_real_cost = none) := by
  obtain ⟨m2, hm2, e1, e2, e3, hcars⟩ :=
    @exists_mem_leftMergeCars (divide_across_years rs (fun r => r.length))
      (divide_across_years rs (fun r => r.cars)) l hl
  obtain ⟨m3, hm3, f1, f2, f3, f4, hcost⟩ :=
    @exists_mem_leftMergeRealCost _
      (divide_across_years rs (fun r => r.real_cost)) m2 hm2
  refine ⟨m3, ?_, by rw [f1, e1], by rw [f2, e2], by rw [f3, e3], ?_, ?_⟩
  · unfold distribute_all_columns_over_years
    exact hm3
  · intro hf
    rw [f4]
    exact hcars hf
  · intro hf
    exact hcost (by rw [e1, e2]; exact hf)

/-- Witness for C2's amended theorem: the single-record frame recFull has a
length row at 2020; a joined row with that key exists. -/
theorem distribute_all_preserves_left_rows_witness :
    (DistributedRow.mk recFull 2020 2 ∈
      divide_across_years [recFull] (fun r => r.length)) ∧
    (∃ m ∈ distribute_all_columns_over_years [recFull],
      m.record = (DistributedRow.mk recFull 2020 2).record ∧
      m.distributed_year = (DistributedRow.mk recFull 2020 2).distributed_year ∧
      m.distributed_length = (DistributedRow.mk recFull 2020 2).value ∧
      ((divide_across_years [recFull] (fun r => r.cars)).filter (fun c =>
        c.record = (DistributedRow.mk recFull 2020 2).record &&
        c.distributed_year =
          (DistributedRow.mk recFull 2020 2).distributed_year) = [] →
        m.distributed_cars = none) ∧
      ((divide_across_years [recFull] (fun r => r.real_cost)).filter (fun c =>
        c.record = (DistributedRow.mk recFull 2020 2).record &&
        c.distributed_year =
          (DistributedRow.mk recFull 2020 2).distributed_year) = [] →
        m.distributed_real_cost = none)) :=
  ⟨by decide, distribute_all_preserves_left_rows [recFull]
    (DistributedRow.mk recFull 2020 2) (by decide)⟩

/-- C7 counterexample: running the gap filler twice is not idempotent — a
cell filled on the first pass is non-null on the second, so its provenance
tag is recomputed from "global min" to "regional". -/
theorem fill_gaps_not_idempotent_counterexample :
    fill_gaps_with_global_average
        (fill_gaps_with_global_average [gapNullRow] gapTrackMin) gapTrackMin ≠
      fill_gaps_with_global_average [gapNullRow] gapTrackMin ∧
    fill_gaps_with_global_average [gapNullRow] gapTrackMin =
      [⟨2020, "Europe", some 7, some "global min"⟩] ∧
    fill_gaps_with_global_average
        (fill_gaps_with_global_average [gapNullRow] gapTrackMin) gapTrackMin =
      [⟨2020, "Europe", some 7, some "regional"⟩] := by decide

/-- C7 (amended): the gap filler is non-destructive and strictly additive —
every output row stems from an input row with the same key; a present,
non-null cost value is never changed (and is tagged "regional"), while only
missing cells are tagged "global min".  Reapplying the filler does not
change costs, but it does relabel the provenance column, so the operation
as a whole is not idempotent (see the counterexample). -/
theorem fill_gaps_non_destructive (df : List GapRow)
    (tc : List TrackCostRow) (out : GapRow)
    (h : out ∈ fill_gaps_with_global_average df tc) :
    ∃ r ∈ df, out.year = r.year ∧ out.uitp_region = r.uitp_region ∧
      (∀ q, r.cost_per_km_distributed = some q →
        out.cost_per_km_distributed = some q ∧
        out.rolling_stock_cost_desc = some "regional") ∧
      (r.cost_per_km_distributed = none →
        out.rolling_stock_cost_desc = some "global min") := by
  unfold fill_gaps_with_global_average at h
  rw [List.mem_flatMap] at h
  obtain ⟨r, hr, hm⟩ := h
  have key : ∃ gm, out =
      { r with
        rolling_stock_cost_desc :=
          some (if r.cost_per_km_distributed.isNone then "global min"
                else "regional"),
        cost_per_km_distributed :=
          if r.cost_per_km_distributed.isNone then gm
          else r.cost_per_km_distributed } := by
    by_cases hms : ((tc.filter (fun t => t.uitp_region = "global min" &&
        t.year = r.year)).map (·.cost_per_km_distributed)).isEmpty
    · simp only [hms, if_true] at hm
      rw [List.mem_singleton] at hm
      exact ⟨none, by simpa using hm⟩
    · simp only [hms, if_false, Bool.false_eq_true, List.mem_map] at hm
      obtain ⟨gm, _, hgm⟩ := hm
      exact ⟨gm, hgm.symm⟩
  obtain ⟨gm, rfl⟩ := key
  refine ⟨r, hr, rfl, rfl, ?_, ?_⟩
  · intro q hq
    constructor
    · simp [hq]
    · simp [hq]
  · intro hq
    simp [hq]

/-- Witness for C7's amended theorem: a present cost value (3) survives the
filler unchanged and is tagged "regional". -/
theorem fill_gaps_non_destructive_witness :
    ((⟨2020, "Asia", some 3, some "regional"⟩ : GapRow) ∈
      fill_gaps_with_global_average [gapFullRow] gapTrackMin) ∧
    (∃ r ∈ [gapFullRow],
      (⟨2020, "Asia", some 3, some "regional"⟩ : GapRow).year = r.year ∧
      (⟨2020, "Asia", some 3, some "regional"⟩ : GapRow).uitp_region =
        r.uitp_region ∧
      (∀ q, r.cost_per_km_distributed = some q →
        (⟨2020, "Asia", some 3, some "regional"⟩ :
          GapRow).cost_per_km_distributed = some q ∧
        (⟨2020, "Asia", some 3, some "regional"⟩ :
          GapRow).rolling_stock_cost_desc = some "regional") ∧
      (r.cost_per_km_distributed = none →
        (⟨2020, "Asia", some 3, some "regional"⟩ :
          GapRow).rolling_stock_cost_desc = some "global min")) :=
  ⟨by decide, fill_gaps_non_destructive [gapFullRow] gapTrackMin
    ⟨2020, "Asia", some 3, some "regional"⟩ (by decide)⟩

/-- C9 counterexample: recEur's (2020, "EUR") pair is absent from xrMiss,
yet `convert_to_usd` keeps the row (with NaN rate and NaN usd cost) instead
of excluding it, and the caller's filter then removes it with no count or
reason recorded anywhere (the pipeline returns only the filtered frame). -/
theorem convert_to_usd_unmatched_counterexample :
    convert_to_usd [recEur] xrMiss =
      [ConvertedRecord.mk recEur (some 99) none none] ∧
    drop_unconvertible (convert_to_usd [recEur] xrMiss) = [] := by decide

/-- C9 (amended): a row whose (start_year, currency) pair has no
exchange-rate match is retained by `convert_to_usd` with a null rate and
null usd cost; the caller then silently drops it by filtering on the null
rate.  No exclusion count is recorded. -/
theorem convert_to_usd_keeps_unmatched (rs : List ProjectRecord)
    (xr : List XRRow) (r : ProjectRecord) (hr : r ∈ rs)
    (hf : xr.filter (fun x => some x.year = r.start_year &&
      x.currency = r.currency) = []) :
    ConvertedRecord.mk r r.real_cost none none ∈ convert_to_usd rs xr ∧
    ConvertedRecord.mk r r.real_cost none none ∉
      drop_unconvertible (convert_to_usd rs xr) := by
  constructor
  · unfold convert_to_usd
    rw [List.mem_flatMap]
    exact ⟨r, hr, by simp [hf]⟩
  · unfold drop_unconvertible
    intro hmem
    rw [List.mem_filter] at hmem
    simp at hmem

/-- Witness for C9's amended theorem at recEur and the table xrMiss. -/
theorem convert_to_usd_keeps_unmatched_witness :
    (recEur ∈ [recEur] ∧
      xrMiss.filter (fun x => some x.year = recEur.start_year &&
        x.currency = recEur.currency) = []) ∧
    (ConvertedRecord.mk recEur recEur.real_cost none none ∈
      convert_to_usd [recEur] xrMiss ∧
    ConvertedRecord.mk recEur recEur.real_cost none none ∉
      drop_unconvertible (convert_to_usd [recEur] xrMiss)) :=
  ⟨⟨by decide, by decide⟩,
   convert_to_usd_keeps_unmatched [recEur] xrMiss recEur (by decide)
     (by decide)⟩

/-- C10: every converted row's usd cost is the record's whole lump-sum cost
times a rate taken from an exchange-rate entry matching exactly
(start_year, currency) — or null when no entry matches — and the conversion
is completely insensitive to end_year, i.e. to how many years the project
spans. -/
theorem convert_to_usd_start_year_rate :
    (∀ (rs : List ProjectRecord) (xr : List XRRow) (out : ConvertedRecord),
      out ∈ convert_to_usd rs xr →
      (∃ x ∈ xr, some x.year = out.record.start_year ∧
        x.currency = out.record.currency ∧ out.lcu_to_usd_xr = x.rate ∧
        out.real_cost = mulOpt out.record.cost x.rate) ∨
      (out.lcu_to_usd_xr = none ∧ out.real_cost = none)) ∧
    (∀ (r : ProjectRecord) (xr : List XRRow) (e : Option ℤ),
      (convert_to_usd [{r with end_year := e}] xr).map
        (fun o => (o.lcu_to_usd_xr, o.real_cost)) =
      (convert_to_usd [r] xr).map (fun o => (o.lcu_to_usd_xr, o.real_cost))) := by
  constructor
  · intro rs xr out h
    unfold convert_to_usd at h
    rw [List.mem_flatMap] at h
    obtain ⟨r, _hr, hm⟩ := h
    by_cases hms : (xr.filter (fun x => some x.year = r.start_year &&
        x.currency = r.currency)).isEmpty
    · simp only [hms, if_true] at hm
      rw [List.mem_singleton] at hm
      subst hm
      exact Or.inr ⟨rfl, rfl⟩
    · simp only [hms, if_false, Bool.false_eq_true, List.mem_map] at hm
      obtain ⟨x, hx, rfl⟩ := hm
      rw [List.mem_filter] at hx
      obtain ⟨hxmem, hxpred⟩ := hx
      simp only [Bool.and_eq_true, decide_eq_true_eq] at hxpred
      exact Or.inl ⟨x, hxmem, hxpred.1, hxpred.2, rfl, rfl⟩
  · intro r xr e
    unfold convert_to_usd
    simp only [List.flatMap_cons, List.flatMap_nil, List.append_nil]
    by_cases hms : (xr.filter (fun x => some x.year = r.start_year &&
        x.currency = r.currency)).isEmpty
    · simp [hms]
    · simp [hms, List.map_map]

/-- Witness for C10 at recEur and the table xrHit (rate 2 at (2020, EUR)):
the converted cost is 10 × 2 = 20, and replacing end_year changes nothing. -/
theorem convert_to_usd_start_year_rate_witness :
    (ConvertedRecord.mk recEur (some 99) (some 2) (some 20) ∈
      convert_to_usd [recEur] xrHit) ∧
    ((∃ x ∈ xrHit, some x.year =
        (ConvertedRecord.mk recEur (some 99) (some 2) (some 20)).record.start_year ∧
      x.currency =
        (ConvertedRecord.mk recEur (some 99) (some 2) (some 20)).record.currency ∧
      (ConvertedRecord.mk recEur (some 99) (some 2) (some 20)).lcu_to_usd_xr =
        x.rate ∧
      (ConvertedRecord.mk recEur (some 99) (some 2) (some 20)).real_cost =
        mulOpt (ConvertedRecord.mk recEur (some 99) (some 2)
          (some 20)).record.cost x.rate) ∨
      ((ConvertedRecord.mk recEur (some 99) (some 2) (some 20)).lcu_to_usd_xr =
        none ∧
      (ConvertedRecord.mk recEur (some 99) (some 2) (some 20)).real_cost =
        none)) ∧
    (convert_to_usd [{recEur with end_year := some 2050}] xrHit).map
        (fun o => (o.lcu_to_usd_xr, o.real_cost)) =
      (convert_to_usd [recEur] xrHit).map
        (fun o => (o.lcu_to_usd_xr, o.real_cost)) :=
  ⟨by decide,
   convert_to_usd_start_year_rate.1 [recEur] xrHit
     (ConvertedRecord.mk recEur (some 99) (some 2) (some 20)) (by decide),
   convert_to_usd_start_year_rate.2 recEur xrHit (some 2050)⟩

/-- C8: every aggregated group's cost_per_km equals the sum of the
distributed costs of the input rows in that group divided by the sum of
their distributed lengths — the ratio is computed after summation, never as
a mean of per-project ratios. -/
theorem ratio_after_sum (rows : List MergedCostRow) (a : RegionalAggRow)
    (h : a ∈ tcp_cost_per_km_aggregate rows) :
    a.cost_per_km_distributed =
      pdDiv
        (((rows.filter (fun r => r.uitp_region = a.uitp_region &&
            r.distributed_year = a.distributed_year)).filterMap
            (·.distributed_real_cost)).sum)
        (((rows.filter (fun r => r.uitp_region = a.uitp_region &&
            r.distributed_year = a.distributed_year)).filterMap
            (·.distributed_length)).sum) := by
  unfold tcp_cost_per_km_aggregate at h
  rw [List.mem_map] at h
  obtain ⟨k, _hk, rfl⟩ := h
  rfl

/-- Witness for C8: three same-group projects with ratios 1, 2 and 3 give
an aggregate ratio of 14/6 = 7/3, which is not the mean 2 of the
per-project ratios. -/
theorem ratio_after_sum_witness :
    (RegionalAggRow.mk "Europe" 2020 14 6 (FloatVal.fin (7/3)) ∈
      tcp_cost_per_km_aggregate aggRowsThree) ∧
    ((RegionalAggRow.mk "Europe" 2020 14 6
        (FloatVal.fin (7/3))).cost_per_km_distributed =
      pdDiv
        (((aggRowsThree.filter (fun r => r.uitp_region =
            (RegionalAggRow.mk "Europe" 2020 14 6
              (FloatVal.fin (7/3))).uitp_region &&
            r.distributed_year = (RegionalAggRow.mk "Europe" 2020 14 6
              (FloatVal.fin (7/3))).distributed_year)).filterMap
            (·.distributed_real_cost)).sum)
        (((aggRowsThree.filter (fun r => r.uitp_region =
            (RegionalAggRow.mk "Europe" 2020 14 6
              (FloatVal.fin (7/3))).uitp_region &&
            r.distributed_year = (RegionalAggRow.mk "Europe" 2020 14 6
              (FloatVal.fin (7/3))).distributed_year)).filterMap
            (·.distributed_length)).sum)) ∧
    FloatVal.fin (7/3) ≠ FloatVal.fin ((1/1 + 4/2 + 9/3) / 3) :=
  ⟨by decide,
   ratio_after_sum aggRowsThree
     (RegionalAggRow.mk "Europe" 2020 14 6 (FloatVal.fin (7/3))) (by decide),
   by decide⟩

/-- C6 counterexample: a group whose summed denominator is 0 (positive cost
5, all-NaN lengths) gets cost_per_km = +infinity — a silently propagated
IEEE artefact, not a tagged "undefined" marker. -/
theorem aggregate_zero_denominator_counterexample :
    tcp_cost_per_km_aggregate [aggRowZeroDen] =
      [RegionalAggRow.mk "Europe" 2020 5 0 FloatVal.inf] := by decide

/-- C6 (amended): for a group with a zero summed denominator the ratio
column holds the IEEE float artefact — +infinity for a positive summed
cost, -infinity for a negative one, NaN for 0/0 — with no tagged
"undefined" marker anywhere. -/
theorem aggregate_zero_denominator_ieee (rows : List MergedCostRow)
    (a : RegionalAggRow) (h : a ∈ tcp_cost_per_km_aggregate rows)
    (hz : a.distributed_length = 0) :
    a.cost_per_km_distributed =
      (if 0 < a.distributed_real_cost then FloatVal.inf
       else if a.distributed_real_cost < 0 then FloatVal.ninf
       else FloatVal.nan) := by
  unfold tcp_cost_per_km_aggregate at h
  rw [List.mem_map] at h
  obtain ⟨k, _hk, rfl⟩ := h
  have hz2 : groupSum rows k (·.distributed_length) = 0 := hz
  show pdDiv (groupSum rows k (·.distributed_real_cost))
      (groupSum rows k (·.distributed_length)) = _
  rw [hz2]
  unfold pdDiv
  simp

/-- Witness for C6's amended theorem at the single-row group with cost 5
and NaN length. -/
theorem aggregate_zero_denominator_ieee_witness :
    (RegionalAggRow.mk "Europe" 2020 5 0 FloatVal.inf ∈
      tcp_cost_per_km_aggregate [aggRowZeroDen]) ∧
    ((RegionalAggRow.mk "Europe" 2020 5 0
        FloatVal.inf).distributed_length = 0) ∧
    ((RegionalAggRow.mk "Europe" 2020 5 0
        FloatVal.inf).cost_per_km_distributed =
      (if 0 < (RegionalAggRow.mk "Europe" 2020 5 0
          FloatVal.inf).distributed_real_cost then FloatVal.inf
       else if (RegionalAggRow.mk "Europe" 2020 5 0
          FloatVal.inf).distributed_real_cost < 0 then FloatVal.ninf
       else FloatVal.nan)) :=
  ⟨by decide, by decide,
   aggregate_zero_denominator_ieee [aggRowZeroDen]
     (RegionalAggRow.mk "Europe" 2020 5 0 FloatVal.inf) (by decide)
     (by decide)⟩

/-- The year grid has no duplicate years. -/
lemma yearGrid_nodup (lo hi : ℤ) : (yearGrid lo hi).Nodup := by
  unfold yearGrid
  apply List.Nodup.map
  · intro a b hab
    have h : lo + (a : ℤ) = lo + (b : ℤ) := hab
    omega
  · exact List.nodup_range _

/-- The year grid enumerates exactly the closed interval [lo, hi]. -/
lemma yearGrid_toFinset (lo hi : ℤ) :
    (yearGrid lo hi).toFinset = Finset.Icc lo hi := by
  ext y
  simp only [List.mem_toFinset, yearGrid, List.mem_map, List.mem_range,
    Finset.mem_Icc]
  constructor
  · rintro ⟨i, hi2, rfl⟩
    omega
  · intro hy
    exact ⟨(y - lo).toNat, by omega, by omega⟩

/-- A sum over the year grid is a sum over the interval [lo, hi]. -/
lemma sum_yearGrid (lo hi : ℤ) (g : ℤ → ℚ) :
    ((yearGrid lo hi).map g).sum = ∑ y in Finset.Icc lo hi, g y := by
  rw [← List.sum_toFinset g (yearGrid_nodup lo hi), yearGrid_toFinset]

/-- A mapped sum over a flatMap splits into the outer-list sum of inner
sums. -/
lemma sum_map_flatMap {α β : Type} (l : List α) (f : α → List β) (g : β → ℚ) :
    ((l.flatMap f).map g).sum = (l.map (fun a => ((f a).map g).sum)).sum := by
  induction l with
  | nil => rfl
  | cons x xs ih =>
    simp [List.flatMap_cons, List.map_append, List.sum_append, ih]

/-- The melted-and-filtered value total of one year column equals the sum
of the per-record kept-cell contributions. -/
lemma inner_sum_eq (rs : List ProjectRecord) (v : ProjectRecord → Option ℚ)
    (y : ℤ) :
    ((rs.filterMap (fun r =>
      match cellValue v r y with
      | some q => if 0 < q then some (DistributedRow.mk r y q) else none
      | none => none)).map (fun row => row.value)).sum
    = (rs.map (fun r => emitVal v r y)).sum := by
  induction rs with
  | nil => rfl
  | cons r rs ih =>
    cases hcv : cellValue v r y with
    | none =>
      simp only [List.filterMap_cons, hcv]
      rw [List.map_cons, List.sum_cons]
      have hz : emitVal v r y = 0 := by unfold emitVal; rw [hcv]
      rw [hz, ih, zero_add]
    | some q =>
      by_cases hq : 0 < q
      · simp only [List.filterMap_cons, hcv, hq, if_true]
        rw [List.map_cons, List.sum_cons, List.map_cons, List.sum_cons, ih]
        have hqe : emitVal v r y = q := by
          unfold emitVal; rw [hcv]; simp [hq]
        rw [hqe]
      · simp only [List.filterMap_cons, hcv, hq, if_false]
        rw [List.map_cons, List.sum_cons, ih]
        have hz : emitVal v r y = 0 := by
          unfold emitVal; rw [hcv]; simp [hq]
        rw [hz, zero_add]

/-- A finite sum of list sums swaps with the list. -/
lemma sum_swap_list_finset (rs : List ProjectRecord) (t : Finset ℤ)
    (f : ProjectRecord → ℤ → ℚ) :
    ∑ y in t, (rs.map (fun r => f r y)).sum =
      (rs.map (fun r => ∑ y in t, f r y)).sum := by
  induction rs with
  | nil => simp
  | cons r rs ih => simp [Finset.sum_add_distrib, ih]

/-- The distributed total of the whole grid organises into one interval sum
per record. -/
lemma flatMap_grid_sum (rs : List ProjectRecord)
    (v : ProjectRecord → Option ℚ) (lo hi : ℤ) :
    (((yearGrid lo hi).flatMap (fun y => rs.filterMap (fun r =>
      match cellValue v r y with
      | some q => if 0 < q then some (DistributedRow.mk r y q) else none
      | none => none))).map (fun row => row.value)).sum
    = (rs.map (fun r => ∑ y in Finset.Icc lo hi, emitVal v r y)).sum := by
  rw [sum_map_flatMap]
  have h1 : (yearGrid lo hi).map (fun y => ((rs.filterMap (fun r =>
        match cellValue v r y with
        | some q => if 0 < q then some (DistributedRow.mk r y q) else none
        | none => none)).map (fun row => row.value)).sum)
      = (yearGrid lo hi).map (fun y => (rs.map (fun r => emitVal v r y)).sum) :=
    List.map_congr_left (fun y _ => inner_sum_eq rs v y)
  rw [h1, sum_yearGrid, sum_swap_list_finset]

/-- For a record with present bounds inside the grid and a nonnegative
present value, the kept-cell contributions over the grid sum to the raw
value. -/
lemma emit_sum_eq (v : ProjectRecord → Option ℚ) (r : ProjectRecord)
    (lo hi s e : ℤ) (q : ℚ)
    (hs : r.start_year = some s) (he : r.end_year = some e)
    (hv : v r = some q) (hse : s ≤ e) (hlos : lo ≤ s) (hehi : e ≤ hi)
    (hq : 0 ≤ q) :
    ∑ y in Finset.Icc lo hi, emitVal v r y = q := by
  have hev : ∀ y : ℤ, emitVal v r y =
      if y ∈ Finset.Icc s e then
        (if 0 < q / ((e - s + 1 : ℤ) : ℚ) then q / ((e - s + 1 : ℤ) : ℚ)
         else 0)
      else 0 := by
    intro y
    unfold emitVal cellValue inSpan spanLen
    rw [hs, he, hv]
    by_cases h1 : s ≤ y
    · by_cases h2 : y ≤ e
      · simp [h1, h2, Finset.mem_Icc]
      · simp [h1, h2, Finset.mem_Icc]
    · by_cases h2 : y ≤ e
      · simp [h1, h2, Finset.mem_Icc]
      · simp [h1, h2, Finset.mem_Icc]
  rw [Finset.sum_congr rfl (fun y _ => hev y), Finset.sum_ite_mem,
    Finset.inter_eq_right.mpr (Finset.Icc_subset_Icc hlos hehi),
    Finset.sum_const, Int.card_Icc]
  rcases eq_or_lt_of_le hq with hq0 | hqpos
  · rw [← hq0]
    simp
  · have hspan : (0 : ℚ) < ((e - s + 1 : ℤ) : ℚ) := by
      exact_mod_cast (by omega : (0 : ℤ) < e - s + 1)
    rw [if_pos (div_pos hqpos hspan), nsmul_eq_mul]
    have hcast : (((e + 1 - s).toNat : ℚ)) = ((e - s + 1 : ℤ) : ℚ) := by
      have h1 : (((e + 1 - s).toNat : ℤ)) = e + 1 - s :=
        Int.toNat_of_nonneg (by omega)
      have h2 : (((e + 1 - s).toNat : ℚ)) = (((e + 1 - s).toNat : ℤ) : ℚ) := by
        push_cast
        ring
      rw [h2, h1]
      have h3 : e + 1 - s = e - s + 1 := by ring
      rw [h3]
    rw [hcast, mul_comm, div_mul_cancel₀ _ (ne_of_gt hspan)]

/-- Replacing each NaN cell by 0 does not change the NaN-skipping sum. -/
lemma sum_filterMap_getD (rs : List ProjectRecord)
    (v : ProjectRecord → Option ℚ) :
    (rs.map (fun r => (v r).getD 0)).sum = (rs.filterMap v).sum := by
  induction rs with
  | nil => rfl
  | cons r rs ih =>
    rw [List.map_cons, List.sum_cons, List.filterMap_cons]
    cases hv : v r with
    | none => simp [ih]
    | some q => simp [ih]

/-- C1 (amended): for input records that all carry present bounds with
start_year ≤ end_year and a present, nonnegative raw value, the distributed
total emitted by `divide_across_years` equals the raw total exactly (the
rational-number idealisation of the floating-point computation; records
with a negative raw value are dropped wholesale and break the equality —
see the counterexample). -/
theorem divide_conservation (rs : List ProjectRecord)
    (v : ProjectRecord → Option ℚ)
    (hrec : ∀ r ∈ rs, ∃ s e q, r.start_year = some s ∧
      r.end_year = some e ∧ s ≤ e ∧ v r = some q ∧ 0 ≤ q) :
    distributedSum (divide_across_years rs v) = rawSum rs v := by
  cases hmin : minStartYear rs with
  | none =>
    unfold minStartYear at hmin
    rw [List.min?_eq_none_iff] at hmin
    have hrs : rs = [] := by
      cases hrs0 : rs with
      | nil => rfl
      | cons r rs0 =>
        have hrmem : r ∈ rs := by
          rw [hrs0]
          exact List.mem_cons_self r rs0
        obtain ⟨s, e, q, hs, he, _⟩ := hrec r hrmem
        have hmem : s ∈ rs.filterMap (·.start_year) :=
          List.mem_filterMap.mpr ⟨r, hrmem, hs⟩
        rw [hmin] at hmem
        simp at hmem
    subst hrs
    rfl
  | some lo =>
  cases hmax : maxEndYear rs with
  | none =>
    unfold maxEndYear at hmax
    rw [List.max?_eq_none_iff] at hmax
    have hne : rs ≠ [] := by
      intro hrs
      rw [hrs] at hmin
      simp [minStartYear] at hmin
    cases hrs0 : rs with
    | nil => exact absurd hrs0 hne
    | cons r rs0 =>
      have hrmem : r ∈ rs := by
        rw [hrs0]
        exact List.mem_cons_self r rs0
      obtain ⟨s, e, q, hs, he, _⟩ := hrec r hrmem
      have hmem : e ∈ rs.filterMap (·.end_year) :=
        List.mem_filterMap.mpr ⟨r, hrmem, he⟩
      rw [hmax] at hmem
      simp at hmem
  | some hi =>
    have hllo : ∀ r ∈ rs, ∀ s, r.start_year = some s → lo ≤ s := by
      intro r hr s hs
      have hmem : s ∈ rs.filterMap (·.start_year) :=
        List.mem_filterMap.mpr ⟨r, hr, hs⟩
      unfold minStartYear at hmin
      exact (List.le_min?_iff (fun a b c => le_min_iff) hmin).mp le_rfl s hmem
    have hhhi : ∀ r ∈ rs, ∀ e, r.end_year = some e → e ≤ hi := by
      intro r hr e he
      have hmem : e ∈ rs.filterMap (·.end_year) :=
        List.mem_filterMap.mpr ⟨r, hr, he⟩
      unfold maxEndYear at hmax
      exact (List.max?_le_iff (fun a b c => max_le_iff) hmax).mp le_rfl e hmem
    have hstep := flatMap_grid_sum rs v lo hi
    have hfinal : (rs.map (fun r =>
        ∑ y in Finset.Icc lo hi, emitVal v r y)).sum = rawSum rs v := by
      have hcongr : rs.map (fun r => ∑ y in Finset.Icc lo hi, emitVal v r y)
          = rs.map (fun r => (v r).getD 0) := by
        apply List.map_congr_left
        intro r hr
        obtain ⟨s, e, q, hs, he, hse, hv, hq⟩ := hrec r hr
        rw [emit_sum_eq v r lo hi s e q hs he hv hse
          (hllo r hr s hs) (hhhi r hr e he) hq, hv]
        rfl
      rw [hcongr]
      exact sum_filterMap_getD rs v
    unfold distributedSum divide_across_years
    rw [hmin, hmax]
    exact hstep.trans hfinal

/-- Witness for C1's amended theorem at recA: 100 spread over five years
sums back to 100. -/
theorem divide_conservation_witness :
    (∀ r ∈ [recA], ∃ s e q, r.start_year = some s ∧
      r.end_year = some e ∧ s ≤ e ∧
      (fun (r : ProjectRecord) => r.real_cost) r = some q ∧ 0 ≤ q) ∧
    distributedSum (divide_across_years [recA] (fun r => r.real_cost)) =
      rawSum [recA] (fun r => r.real_cost) ∧
    rawSum [recA] (fun r => r.real_cost) = 100 :=
  ⟨fun r hr => by
      rw [List.mem_singleton] at hr
      subst hr
      exact ⟨2018, 2022, 100, rfl, rfl, by norm_num, rfl, by norm_num⟩,
   divide_conservation [recA] (fun r => r.real_cost)
     (fun r hr => by
      rw [List.mem_singleton] at hr
      subst hr
      exact ⟨2018, 2022, 100, rfl, rfl, by norm_num, rfl, by norm_num⟩),
   by decide⟩

end Metro
